import Mathlib

/-!
Shallow embedding of the tiny raw-mode terminal editor (src/main.c and
src/raw_mode_editor.c).  Machine bytes are modelled as `Nat` values in
[0,256); the C `int` cursor coordinates and screen extents are modelled
as `Int`.  The byte source behind `read(STDIN_FILENO, ...)` is modelled
as a finite `List Nat`: a successful one-byte read takes the head, a
short read (the VMIN=0/VTIME=1 timeout) is the empty list.
-/

/-- Bytes of an ASCII string literal (every literal used is pure ASCII;
the one non-ASCII character in the source, `×` in the status format,
is inserted explicitly as its UTF-8 bytes 0xC3 0x97). -/
def ascii (s : String) : List Nat := s.data.map Char.toNat

/-- Decimal digits printed by `%d` / `snprintf` for a nonnegative value. -/
def digitsB (n : Nat) : List Nat := ascii (Nat.repr n)

/-! ### Terminal attributes (enableRawMode / disableRawMode)

Flag constants are the Linux (asm-generic) termios values used when the
source is built on Linux; `VTIME`/`VMIN` are the Linux `c_cc` indices. -/

def BRKINT : Nat := 2
def ICRNL : Nat := 256
def INPCK : Nat := 16
def ISTRIP : Nat := 32
def IXON : Nat := 1024
def OPOST : Nat := 1
def CS8 : Nat := 48
def ECHO : Nat := 8
def ICANON : Nat := 2
def IEXTEN : Nat := 32768
def ISIG : Nat := 1
def VTIME : Nat := 5
def VMIN : Nat := 6

/-- Model of `struct termios`: the four flag words and the control-character
array `c_cc`, the latter modelled as a function from index to byte. -/
structure Termios where
  c_iflag : Nat
  c_oflag : Nat
  c_cflag : Nat
  c_lflag : Nat
  c_cc : Nat → Nat

/-- Semantics of `f &= ~m`: clear in `f` every bit set in `m` (width-independent). -/
def clearBits (f m : Nat) : Nat := f ^^^ (f &&& m)

/-- The modified attribute set built by `enableRawMode` from the
captured snapshot (lines 35-58 of src/main.c, 36-59 of
src/raw_mode_editor.c). -/
def mkRaw (t : Termios) : Termios :=
  { c_iflag := clearBits t.c_iflag (BRKINT ||| ICRNL ||| INPCK ||| ISTRIP ||| IXON)
    c_oflag := clearBits t.c_oflag OPOST
    c_cflag := t.c_cflag ||| CS8
    c_lflag := clearBits t.c_lflag (ECHO ||| ICANON ||| IEXTEN ||| ISIG)
    c_cc := fun i => if i = VMIN then 0 else if i = VTIME then 1 else t.c_cc i }

/-- The state touched by the two mode functions: the terminal's active
attribute set (read by `tcgetattr`, written by `tcsetattr`) and the
global `orig_termios` snapshot. -/
structure TermState where
  active : Termios
  orig_termios : Termios

/-- Model of `enableRawMode`: capture the active attributes into `orig_termios`,
then apply the modified set.  The snapshot is written exactly once
here and never again. -/
def enableRawMode (s : TermState) : TermState :=
  { orig_termios := s.active, active := mkRaw s.active }

/-- Model of `disableRawMode`: reapply the captured snapshot. -/
def disableRawMode (s : TermState) : TermState :=
  { s with active := s.orig_termios }

/-! ### Key codes (the `#define`s of src/main.c lines 67-76) -/

def KEY_UP : Nat := 1000
def KEY_DOWN : Nat := 1001
def KEY_RIGHT : Nat := 1002
def KEY_LEFT : Nat := 1003
def KEY_PAGE_UP : Nat := 1004
def KEY_PAGE_DOWN : Nat := 1005
def KEY_HOME : Nat := 1006
def KEY_END : Nat := 1007
def KEY_DEL : Nat := 1008
def KEY_ESC : Nat := 27

/-- The inner `switch (seq[1])` of the `ESC [ <digit> ~` branch
(src/main.c lines 171-179); the fall-through default is the final
`return '\x1b'`. -/
def escDigitKey (s1 : Nat) : Nat :=
  if s1 = 49 then KEY_HOME
  else if s1 = 51 then KEY_DEL
  else if s1 = 52 then KEY_END
  else if s1 = 53 then KEY_PAGE_UP
  else if s1 = 54 then KEY_PAGE_DOWN
  else if s1 = 55 then KEY_HOME
  else if s1 = 56 then KEY_END
  else 27

/-- The `switch (seq[1])` of the `ESC [ <letter>` branch (src/main.c
lines 182-189); the fall-through default is the final `return '\x1b'`. -/
def escLetterKey (s1 : Nat) : Nat :=
  if s1 = 65 then KEY_UP
  else if s1 = 66 then KEY_DOWN
  else if s1 = 67 then KEY_RIGHT
  else if s1 = 68 then KEY_LEFT
  else if s1 = 72 then KEY_HOME
  else if s1 = 70 then KEY_END
  else 27

/-- The `switch (seq[1])` of the `ESC O` branch (src/main.c lines
192-195); the fall-through default is the final `return '\x1b'`. -/
def escOKey (s1 : Nat) : Nat :=
  if s1 = 72 then KEY_HOME
  else if s1 = 70 then KEY_END
  else 27

/-- Model of `readKey` (src/main.c lines 153-202) over a finite byte
source.
`none` models the initial blocking read looping forever because no byte
ever arrives; otherwise the result is the returned key code together
with the bytes left unconsumed.  The inner `read` calls use the raw-mode
timeout, so an exhausted source there is the short read that returns
`'\x1b'`. -/
def readKey : List Nat → Option (Nat × List Nat)
  | [] => none
  | c :: rest =>
    if c = 27 then
      match rest with
      | [] => some (27, [])
      | [_] => some (27, [])
      | s0 :: s1 :: r2 =>
        if s0 = 91 then
          if 48 ≤ s1 && s1 ≤ 57 then
            match r2 with
            | [] => some (27, [])
            | s2 :: r3 =>
              if s2 = 126 then some (escDigitKey s1, r3) else some (27, r3)
          else some (escLetterKey s1, r2)
        else if s0 = 79 then some (escOKey s1, r2)
        else some (27, r2)
    else some (c, rest)

/-- The recognized escape sequences, read off the decoder's switch
cases (and the spec's tables, section 6): after the escape byte,
`[ d ~` for d ∈ {1,3,4,5,6,7,8}, `[ L` for L ∈ {A,B,C,D,H,F}, or
`O L` for L ∈ {H,F}.  Everything else following an escape byte —
including a short read — is outside the recognized set and must decode
to bare Escape. -/
def recognizedEsc : List Nat → Bool
  | s0 :: s1 :: r2 =>
    if s0 = 91 then
      if 48 ≤ s1 && s1 ≤ 57 then
        match r2 with
        | [] => false
        | s2 :: _ =>
          s2 = 126 && (s1 = 49 || s1 = 51 || s1 = 52 || s1 = 53 || s1 = 54
            || s1 = 55 || s1 = 56)
      else
        s1 = 65 || s1 = 66 || s1 = 67 || s1 = 68 || s1 = 72 || s1 = 70
    else if s0 = 79 then s1 = 72 || s1 = 70
    else false
  | _ => false

/-! ### getCursorPosition (src/main.c lines 124-144) -/

/-- The read loop of `getCursorPosition`: at most `n` bytes (the C
loop bound is `i < sizeof(buf) - 1`, i.e. 31) are stored; reading stops
early at the first `'R'` (which is then overwritten by the terminating
NUL, so it is not part of the buffer) or when the source is exhausted
(short read). -/
def readResp : Nat → List Nat → List Nat
  | 0, _ => []
  | _, [] => []
  | n + 1, b :: rest => if b = 82 then [] else b :: readResp n rest

/-- Is the byte an ASCII decimal digit (`'0'`..`'9'`)? -/
def isDigitB (b : Nat) : Bool := 48 ≤ b && b ≤ 57

/-- Is the byte whitespace in the sense of C `isspace` (skipped by a
`scanf` `%d` conversion)? -/
def isSpaceB (b : Nat) : Bool := b = 32 || (9 ≤ b && b ≤ 13)

/-- Consume a run of decimal digits, accumulating their value. -/
def digitsGo (acc : Nat) : List Nat → Nat × List Nat
  | [] => (acc, [])
  | b :: rest =>
    if isDigitB b then digitsGo (acc * 10 + (b - 48)) rest else (acc, b :: rest)

/-- One `%d` conversion of `sscanf`: skip whitespace, an optional sign,
then at least one digit; `none` is a matching failure.  Value overflow
of the C `int` is not modelled (the buffer holds at most 31 bytes and
terminal replies are small). -/
def parseIntScan (l : List Nat) : Option (Int × List Nat) :=
  match l.dropWhile isSpaceB with
  | [] => none
  | b :: rest =>
    if b = 45 then
      match rest with
      | [] => none
      | b2 :: _ =>
        if isDigitB b2 then
          some (-((digitsGo 0 rest).1 : Int), (digitsGo 0 rest).2)
        else none
    else if b = 43 then
      match rest with
      | [] => none
      | b2 :: _ =>
        if isDigitB b2 then
          some (((digitsGo 0 rest).1 : Int), (digitsGo 0 rest).2)
        else none
    else if isDigitB b then
      some (((digitsGo 0 (b :: rest)).1 : Int), (digitsGo 0 (b :: rest)).2)
    else none

/-- Semantics of `sscanf(s, "%d;%d", ...) == 2`: two `%d` conversions separated by a
literal `';'` (which matches exactly one `';'`, no whitespace skip). -/
def sscanfDD (l : List Nat) : Option (Int × Int) :=
  match parseIntScan l with
  | none => none
  | some (v1, r1) =>
    match r1 with
    | 59 :: r2 =>
      match parseIntScan r2 with
      | none => none
      | some (v2, _) => some (v1, v2)
    | _ => none

/-- Model of `getCursorPosition` over the byte source that answers the `ESC[6n`
query: `some (rows, cols)` is the success path (return 0 with both
out-parameters written), `none` is the `-1` error return.  `buf` is the
NUL-terminated buffer; `buf[1]` is only inspected after `buf[0]`
matched (C short-circuit `||`), so indexing past the stored bytes can
only hit the terminating NUL. -/
def getCursorPosition (input : List Nat) : Option (Int × Int) :=
  let buf := readResp 31 input ++ [0]
  if buf.getD 0 0 ≠ 27 then none
  else if buf.getD 1 0 ≠ 91 then none
  else sscanfDD ((readResp 31 input).drop 2)

/-- The decimal value of a digit string, as read by `%d`. -/
def decVal (ds : List Nat) : Int :=
  ((ds.foldl (fun a b => a * 10 + (b - 48)) 0 : Nat) : Int)

/-! ### Editor state and moveCursor (src/main.c lines 79-86, 205-232) -/

/-- Model of `struct editorState` (C `int` fields). -/
structure EState where
  screenrows : Int
  screencols : Int
  cursor_x : Int
  cursor_y : Int
deriving DecidableEq

/-- Model of `moveCursor` (src/main.c lines 205-232); keys outside the
eight
handled cases fall through the `switch` and leave the state unchanged. -/
def moveCursor (key : Nat) (E : EState) : EState :=
  if key = KEY_UP then
    { E with cursor_y := if E.cursor_y > 0 then E.cursor_y - 1 else E.cursor_y }
  else if key = KEY_DOWN then
    { E with cursor_y :=
        if E.cursor_y < E.screenrows - 1 then E.cursor_y + 1 else E.cursor_y }
  else if key = KEY_LEFT then
    { E with cursor_x := if E.cursor_x > 0 then E.cursor_x - 1 else E.cursor_x }
  else if key = KEY_RIGHT then
    { E with cursor_x :=
        if E.cursor_x < E.screencols - 1 then E.cursor_x + 1 else E.cursor_x }
  else if key = KEY_HOME then { E with cursor_x := 0 }
  else if key = KEY_END then { E with cursor_x := E.screencols - 1 }
  else if key = KEY_PAGE_UP then { E with cursor_y := 0 }
  else if key = KEY_PAGE_DOWN then { E with cursor_y := E.screenrows - 1 }
  else E

/-! ### drawWelcome (src/main.c lines 235-250) -/

/-- The banner written by the `snprintf` call in `drawWelcome`. -/
def welcomeBanner : List Nat := ascii "Tiny Editor -- version 0.0.1"

/-- The clipped `welcomelen`: `snprintf` into the 80-byte `welcome`
buffer stores at most 79 bytes plus a NUL but returns the untruncated
banner length, which is then clipped to `screencols`.  `drawWelcome` is
parametrised by the banner bytes so that the clipping behaviour can be
stated for banners of any length. -/
def welcomelenOf (banner : List Nat) (screencols : Nat) : Nat :=
  if banner.length > screencols then screencols else banner.length

/-- The centering padding `(E.screencols - welcomelen) / 2`. -/
def paddingOf (banner : List Nat) (screencols : Nat) : Nat :=
  (screencols - welcomelenOf banner screencols) / 2

/-- The bytes `drawWelcome` appends for row 0's content: a `~` plus
spaces when there is padding, then `welcomelen` bytes copied out of the
`snprintf` buffer. -/
def drawWelcome (banner : List Nat) (screencols : Nat) : List Nat :=
  (if paddingOf banner screencols > 0 then
      126 :: List.replicate (paddingOf banner screencols - 1) 32
    else [])
    ++ (banner.take 79 ++ [0]).take (welcomelenOf banner screencols)

/-! ### refreshScreen (src/main.c lines 252-313)

The frame is modelled as the list of segments handed to `abAppend`, in
order; each segment remembers which `abAppend` call produced it, and
`Seg.bytes` recovers the exact bytes, so the concatenation of
`Seg.bytes` over the list is the byte buffer written by the single
`write` call.  Screen extent and cursor coordinates are taken as `Nat`
here: the editor only ever renders states whose extents are positive
and whose cursor is in range (the `CursorPosition` invariant), and
`%d` on those nonnegative ints prints their decimal digits. -/

inductive Seg where
  | hideCursor
  | home
  | text (s : List Nat)
  | clearLine
  | crlf
  | farRight
  | up1
  | reverseOn
  | reverseOff
  | posCursor (r c : Nat)
  | showCursor
deriving DecidableEq

/-- The bytes each `abAppend` call appends. -/
def Seg.bytes : Seg → List Nat
  | .hideCursor => ascii "\x1b[?25l"
  | .home => ascii "\x1b[H"
  | .text s => s
  | .clearLine => ascii "\x1b[K"
  | .crlf => [13, 10]
  | .farRight => ascii "\x1b[999C"
  | .up1 => ascii "\x1b[1A"
  | .reverseOn => ascii "\x1b[7m"
  | .reverseOff => ascii "\x1b[m"
  | .posCursor r c => ascii "\x1b[" ++ digitsB r ++ [59] ++ digitsB c ++ [72]
  | .showCursor => ascii "\x1b[?25h"

/-- The line-number prefix `snprintf(line, 32, "%d ", y + 1)`. -/
def lineNum (y : Nat) : List Nat := digitsB (y + 1) ++ [32]

/-- The segments appended for screen row `y` (line number, content,
clear-to-end-of-line, and a CRLF on every row but the last). -/
def rowSegs (rows cols y : Nat) : List Seg :=
  [.text (lineNum y),
   .text (if y = 0 then drawWelcome welcomeBanner cols else [126]),
   .clearLine]
    ++ (if y < rows - 1 then [.crlf] else [])

/-- The full status text
`"[Cursor: %d,%d] [Size: %d×%d]"` (the `×` is U+00D7, UTF-8 0xC3 0x97)
with 1-indexed cursor coordinates, before any clipping. -/
def statusFull (cy cx rows cols : Nat) : List Nat :=
  ascii "[Cursor: " ++ digitsB (cy + 1) ++ [44] ++ digitsB (cx + 1)
    ++ ascii "] [Size: " ++ digitsB cols ++ [195, 151] ++ digitsB rows ++ [93]

/-- The status bytes actually appended: `snprintf` stores at most 79
bytes (plus NUL) of the status into its 80-byte buffer but returns the
full length, which is clipped to `cols`; that many bytes are copied out
of the buffer. -/
def statusSent (cy cx rows cols : Nat) : List Nat :=
  let full := statusFull cy cx rows cols
  let stored := full.take 79 ++ [0]
  stored.take (if full.length > cols then cols else full.length)

/-- The complete frame of `refreshScreen` as a segment list. -/
def frameSegs (rows cols cy cx : Nat) : List Seg :=
  [.hideCursor, .home]
    ++ (List.range rows).flatMap (rowSegs rows cols)
    ++ [.farRight, .up1, .reverseOn, .text (statusSent cy cx rows cols),
        .reverseOff, .posCursor (cy + 1) (cx + 1), .showCursor]

/-- The frame's byte buffer (the single `write`). -/
def frameBytes (rows cols cy cx : Nat) : List Nat :=
  (frameSegs rows cols cy cx).flatMap Seg.bytes

/-- Vertical cursor movement a terminal performs for one segment:
`ESC[H` homes to row 1, CRLF moves down one row, `ESC[1A` moves up one
row (clamped at the top), `ESC[r;cH` jumps to row `r`; every other
segment moves only horizontally.  Rows are 1-indexed; content lines are
assumed not to wrap. -/
def vStep (r : Nat) : Seg → Nat
  | .home => 1
  | .crlf => r + 1
  | .up1 => max 1 (r - 1)
  | .posCursor a _ => a
  | .hideCursor => r
  | .text _ => r
  | .clearLine => r
  | .farRight => r
  | .reverseOn => r
  | .reverseOff => r
  | .showCursor => r

/-- The 1-indexed terminal row on which the reverse-video status string
starts: run the vertical-movement model over the frame until the
`ESC[7m` segment. -/
def statusRow : Nat → List Seg → Nat
  | r, [] => r
  | r, s :: rest => if s = .reverseOn then r else statusRow (vStep r s) rest

/-- The frame bytes that precede the status block (cursor hide, home,
and the content rows). -/
def framePrefix (rows cols : Nat) : List Nat :=
  ([Seg.hideCursor, Seg.home]
    ++ (List.range rows).flatMap (rowSegs rows cols)).flatMap Seg.bytes

/-- The frame bytes that follow the status block (cursor repositioning
and cursor show). -/
def frameSuffix (cy cx : Nat) : List Nat :=
  ([Seg.posCursor (cy + 1) (cx + 1), Seg.showCursor]).flatMap Seg.bytes

/-! ### The main loop (src/main.c lines 323-358) -/

/-- The quit test of the main loop: `c == 'q' || c == KEY_ESC`. -/
def quitKeyB (c : Nat) : Bool := c = 113 || c = 27

/-- Keys dispatched to `moveCursor` by the `switch` in `main`
(KEY_UP .. KEY_END .. KEY_PAGE_DOWN; note KEY_DEL is not among them). -/
def isNavKeyB (c : Nat) : Bool := 1000 ≤ c && c ≤ 1007

/-- Outcome of `main` once the loop breaks: final editor state, whether
`clearScreen` ran (it does, on the quit path), the process exit code
(0, the `return 0` after the loop), and the input bytes never read. -/
structure MainResult where
  final : EState
  screenCleared : Bool
  exitCode : Nat
  unread : List Nat
deriving DecidableEq

/-- The `while (1)` loop of `main`, fuelled (each iteration consumes at
least one input byte, so any fuel beyond the input length is enough).
`none` models the loop blocking forever in `readKey` on an exhausted
source.  `refreshScreen` only writes output and is elided from the
state transition. -/
def runLoop : Nat → EState → List Nat → Option MainResult
  | 0, _, _ => none
  | fuel + 1, E, input =>
    match readKey input with
    | none => none
    | some (c, rest) =>
      if quitKeyB c then some ⟨E, true, 0, rest⟩
      else runLoop fuel (if isNavKeyB c then moveCursor c E else E) rest


/-- Modelled from the spec's words (section 4.2): the response "must
match the pattern ESC `[` `<rows>` `;` `<cols>` `R`" — exactly an
escape byte, a bracket, a nonempty digit string, a semicolon, a
nonempty digit string and the terminator `R`, nothing else.  Used to
compare the spec's acceptance condition against `getCursorPosition`. -/
def specPattern (resp : List Nat) : Bool :=
  match resp with
  | 27 :: 91 :: rest =>
    match rest.dropWhile isDigitB with
    | 59 :: rest2 =>
      match rest2.dropWhile isDigitB with
      | [82] =>
        !(rest.takeWhile isDigitB).isEmpty && !(rest2.takeWhile isDigitB).isEmpty
      | _ => false
    | _ => false
  | _ => false

/-! ## Theorems -/

/-- Helper: `f &= ~m` clears exactly the bits of `m`. -/
theorem clearBits_testBit (f m b : Nat) :
    (clearBits f m).testBit b = (f.testBit b && !(m.testBit b)) := by
  simp only [clearBits, Nat.testBit_xor, Nat.testBit_land]
  cases f.testBit b <;> cases m.testBit b <;> rfl

/-- Claim C1: for every navigation key and every cursor position inside
[0,rows)×[0,cols) of an extent with rows > 0 and cols > 0, `moveCursor`
produces a position still inside [0,rows)×[0,cols): Up/Down/Left/Right
move by one unit but stop at the bounds, Home/End set the column to
0 / cols-1, PageUp/PageDown set the row to 0 / rows-1. -/
theorem moveCursor_in_bounds (key : Nat) (E : EState)
    (hr : 0 < E.screenrows) (hc : 0 < E.screencols)
    (hy0 : 0 ≤ E.cursor_y) (hy : E.cursor_y < E.screenrows)
    (hx0 : 0 ≤ E.cursor_x) (hx : E.cursor_x < E.screencols) :
    (0 ≤ (moveCursor key E).cursor_y ∧ (moveCursor key E).cursor_y < E.screenrows
      ∧ 0 ≤ (moveCursor key E).cursor_x ∧ (moveCursor key E).cursor_x < E.screencols)
    ∧ (moveCursor KEY_UP E).cursor_y = max 0 (E.cursor_y - 1)
    ∧ (moveCursor KEY_DOWN E).cursor_y = min (E.screenrows - 1) (E.cursor_y + 1)
    ∧ (moveCursor KEY_LEFT E).cursor_x = max 0 (E.cursor_x - 1)
    ∧ (moveCursor KEY_RIGHT E).cursor_x = min (E.screencols - 1) (E.cursor_x + 1)
    ∧ (moveCursor KEY_HOME E).cursor_x = 0
    ∧ (moveCursor KEY_END E).cursor_x = E.screencols - 1
    ∧ (moveCursor KEY_PAGE_UP E).cursor_y = 0
    ∧ (moveCursor KEY_PAGE_DOWN E).cursor_y = E.screenrows - 1 := by
  have hbounds : 0 ≤ (moveCursor key E).cursor_y
      ∧ (moveCursor key E).cursor_y < E.screenrows
      ∧ 0 ≤ (moveCursor key E).cursor_x
      ∧ (moveCursor key E).cursor_x < E.screencols := by
    unfold moveCursor
    split_ifs <;> refine ⟨?_, ?_, ?_, ?_⟩ <;> (try simp) <;> omega
  refine ⟨hbounds, ?_, ?_, ?_, ?_, ?_, ?_, ?_, ?_⟩ <;>
    simp only [moveCursor, KEY_UP, KEY_DOWN, KEY_LEFT, KEY_RIGHT, KEY_HOME,
      KEY_END, KEY_PAGE_UP, KEY_PAGE_DOWN, KEY_DEL] <;>
    norm_num <;> split_ifs <;> omega

/-- Witness for C1 at key = Right arrow, state (24,80) cursor (0,0). -/
theorem moveCursor_in_bounds_witness :
    0 ≤ (moveCursor KEY_RIGHT ⟨24, 80, 0, 0⟩).cursor_y
      ∧ (moveCursor KEY_RIGHT ⟨24, 80, 0, 0⟩).cursor_y < (24 : Int)
      ∧ 0 ≤ (moveCursor KEY_RIGHT ⟨24, 80, 0, 0⟩).cursor_x
      ∧ (moveCursor KEY_RIGHT ⟨24, 80, 0, 0⟩).cursor_x < (80 : Int) :=
  (moveCursor_in_bounds KEY_RIGHT ⟨24, 80, 0, 0⟩ (by decide) (by decide)
    (by decide) (by decide) (by decide) (by decide)).1

/-- Claim C6: the attribute snapshot captured by `enableRawMode` equals
the attribute set that was active at capture, it is still unchanged
after `disableRawMode`, and `disableRawMode` reapplies exactly that
snapshot, so entering raw mode and restoring yields the original
attribute set bit-for-bit. -/
theorem rawMode_roundtrip (s : TermState) :
    (enableRawMode s).orig_termios = s.active
    ∧ (disableRawMode (enableRawMode s)).orig_termios = s.active
    ∧ (disableRawMode (enableRawMode s)).active = s.active :=
  ⟨rfl, rfl, rfl⟩

/-- Claim C7: the raw attribute set differs from the snapshot exactly
by clearing BRKINT/ICRNL/INPCK/ISTRIP/IXON in the input flags, clearing
OPOST in the output flags, setting CS8 in the control flags, clearing
ECHO/ICANON/IEXTEN/ISIG in the local flags, and setting VMIN to 0 and
VTIME to 1 (all other control characters unchanged). -/
theorem enableRawMode_attr_diff (t : Termios) (b i : Nat) :
    (mkRaw t).c_iflag.testBit b
        = (t.c_iflag.testBit b
            && !((BRKINT ||| ICRNL ||| INPCK ||| ISTRIP ||| IXON).testBit b))
    ∧ (mkRaw t).c_oflag.testBit b = (t.c_oflag.testBit b && !(OPOST.testBit b))
    ∧ (mkRaw t).c_cflag.testBit b = (t.c_cflag.testBit b || CS8.testBit b)
    ∧ (mkRaw t).c_lflag.testBit b
        = (t.c_lflag.testBit b
            && !((ECHO ||| ICANON ||| IEXTEN ||| ISIG).testBit b))
    ∧ (mkRaw t).c_cc i
        = (if i = VMIN then 0 else if i = VTIME then 1 else t.c_cc i) :=
  ⟨clearBits_testBit _ _ _, clearBits_testBit _ _ _, Nat.testBit_or _ _ _,
   clearBits_testBit _ _ _, rfl⟩

/-- Claim C9: on input bytes h, j, ESC [ C, q from initial cursor (0,0)
and extent (24,80), h and j are returned as plain bytes (not navigation
keys), the loop ends with the cursor at row 0, column 1, and after the
q byte the loop terminates with the screen cleared, exit code 0, and
all input consumed. -/
theorem main_scenario_hj_right_q :
    isNavKeyB 104 = false ∧ isNavKeyB 106 = false
    ∧ runLoop 7 ⟨24, 80, 0, 0⟩ [104, 106, 27, 91, 67, 113]
        = some ⟨⟨24, 80, 1, 0⟩, true, 0, []⟩ := by
  decide

/-- Helper: decoding an escape byte followed by any byte sequence
outside the recognized set returns the bare Escape value 27. -/
theorem readKey_unrecognized (seq : List Nat)
    (hrec : recognizedEsc seq = false) :
    ∃ left, readKey (27 :: seq) = some (27, left) := by
  match seq with
  | [] => exact ⟨[], rfl⟩
  | [s0] => exact ⟨[], rfl⟩
  | s0 :: s1 :: r2 =>
    by_cases h0 : s0 = 91
    · subst h0
      by_cases hd : (48 ≤ s1 && s1 ≤ 57) = true
      · match r2 with
        | [] => exact ⟨[], by simp [readKey, hd]⟩
        | s2 :: r3 =>
          by_cases h126 : s2 = 126
          · subst h126
            simp [recognizedEsc, hd] at hrec
            have hk : escDigitKey s1 = 27 := by
              unfold escDigitKey
              split_ifs <;> simp_all
            exact ⟨r3, by simp [readKey, hd, hk]⟩
          · exact ⟨r3, by simp [readKey, hd, h126]⟩
      · simp [recognizedEsc, hd] at hrec
        have hk : escLetterKey s1 = 27 := by
          unfold escLetterKey
          split_ifs <;> simp_all
        exact ⟨r2, by simp [readKey, hd, hk]⟩
    · by_cases h79 : s0 = 79
      · subst h79
        simp [recognizedEsc] at hrec
        have hk : escOKey s1 = 27 := by
          unfold escOKey
          split_ifs <;> simp_all
        exact ⟨r2, by simp [readKey, hk]⟩
      · exact ⟨r2, by simp [readKey, h0, h79]⟩

/-- Claim C10: every escape sequence outside the recognized set decodes
to the same value 0x1B as a bare escape press, and the main loop's quit
check therefore terminates the editor on it (screen cleared, exit code
0, state unchanged) exactly as for bare Escape, whatever the editor
state and the following input; in particular ESC O P (an F1 key) does. -/
theorem unrecognized_escape_quits (n : Nat) (E : EState) (rest : List Nat) :
    (∀ seq, recognizedEsc seq = false →
        ∃ left, readKey (27 :: seq) = some (27, left)
          ∧ runLoop (n + 1) E (27 :: seq) = some ⟨E, true, 0, left⟩)
    ∧ readKey (27 :: 79 :: 80 :: rest) = some (27, rest)
    ∧ readKey [27] = some (27, [])
    ∧ runLoop (n + 1) E (27 :: 79 :: 80 :: rest) = some ⟨E, true, 0, rest⟩ := by
  refine ⟨?_, rfl, rfl, ?_⟩
  · intro seq hrec
    obtain ⟨left, hk⟩ := readKey_unrecognized seq hrec
    exact ⟨left, hk, by simp [runLoop, hk, quitKeyB]⟩
  · simp [runLoop, readKey, escOKey, quitKeyB]

/-- Witness for C10: ESC O P with nothing following quits the loop from
state (24,80,(0,0)) with the screen cleared and exit code 0. -/
theorem unrecognized_escape_quits_witness :
    ∃ left, readKey [27, 79, 80] = some (27, left)
      ∧ runLoop 1 ⟨24, 80, 0, 0⟩ [27, 79, 80]
          = some ⟨⟨24, 80, 0, 0⟩, true, 0, left⟩ :=
  (unrecognized_escape_quits 0 ⟨24, 80, 0, 0⟩ []).1 [79, 80] (by decide)

/-- Claim C2: `readKey` maps escape sequences exactly per the spec
tables: ESC [ d ~ yields Home for d ∈ {1,7}, Delete for 3, End for
{4,8}, PageUp for 5, PageDown for 6, and any other digit/terminator
combination yields bare Escape; ESC [ A/B/C/D/H/F yield
Up/Down/Right/Left/Home/End; ESC O H and ESC O F yield Home and End. -/
theorem readKey_escape_table (rest : List Nat) :
    readKey (27 :: 91 :: 49 :: 126 :: rest) = some (KEY_HOME, rest)
    ∧ readKey (27 :: 91 :: 51 :: 126 :: rest) = some (KEY_DEL, rest)
    ∧ readKey (27 :: 91 :: 52 :: 126 :: rest) = some (KEY_END, rest)
    ∧ readKey (27 :: 91 :: 53 :: 126 :: rest) = some (KEY_PAGE_UP, rest)
    ∧ readKey (27 :: 91 :: 54 :: 126 :: rest) = some (KEY_PAGE_DOWN, rest)
    ∧ readKey (27 :: 91 :: 55 :: 126 :: rest) = some (KEY_HOME, rest)
    ∧ readKey (27 :: 91 :: 56 :: 126 :: rest) = some (KEY_END, rest)
    ∧ (∀ d t, isDigitB d = true → (t ≠ 126 ∨ d = 48 ∨ d = 50 ∨ d = 57) →
        readKey (27 :: 91 :: d :: t :: rest) = some (27, rest))
    ∧ readKey (27 :: 91 :: 65 :: rest) = some (KEY_UP, rest)
    ∧ readKey (27 :: 91 :: 66 :: rest) = some (KEY_DOWN, rest)
    ∧ readKey (27 :: 91 :: 67 :: rest) = some (KEY_RIGHT, rest)
    ∧ readKey (27 :: 91 :: 68 :: rest) = some (KEY_LEFT, rest)
    ∧ readKey (27 :: 91 :: 72 :: rest) = some (KEY_HOME, rest)
    ∧ readKey (27 :: 91 :: 70 :: rest) = some (KEY_END, rest)
    ∧ readKey (27 :: 79 :: 72 :: rest) = some (KEY_HOME, rest)
    ∧ readKey (27 :: 79 :: 70 :: rest) = some (KEY_END, rest) := by
  refine ⟨rfl, rfl, rfl, rfl, rfl, rfl, rfl, ?_, rfl, rfl, rfl, rfl, rfl, rfl,
    rfl, rfl⟩
  intro d t hd ht
  have hd' : (48 ≤ d && d ≤ 57) = true := hd
  rcases ht with ht | rfl | rfl | rfl
  · simp [readKey, hd', ht]
  · by_cases ht2 : t = 126 <;> simp [readKey, escDigitKey, ht2]
  · by_cases ht2 : t = 126 <;> simp [readKey, escDigitKey, ht2]
  · by_cases ht2 : t = 126 <;> simp [readKey, escDigitKey, ht2]

/-- Witness for C2: the unmapped combination ESC [ 0 ~ degrades to
bare Escape. -/
theorem readKey_escape_table_witness :
    readKey [27, 91, 48, 126] = some (27, []) :=
  (readKey_escape_table []).2.2.2.2.2.2.2.1 48 126 (by decide) (by decide)

/-- Helper: every outcome of the `ESC [ <digit> ~` switch is a named
key code or the bare escape value. -/
theorem escDigitKey_cases (u : Nat) :
    escDigitKey u = 27 ∨ (1000 ≤ escDigitKey u ∧ escDigitKey u ≤ 1008) := by
  unfold escDigitKey KEY_HOME KEY_DEL KEY_END KEY_PAGE_UP KEY_PAGE_DOWN
  split_ifs <;> omega

/-- Helper: every outcome of the `ESC [ <letter>` switch is a named
key code or the bare escape value. -/
theorem escLetterKey_cases (u : Nat) :
    escLetterKey u = 27 ∨ (1000 ≤ escLetterKey u ∧ escLetterKey u ≤ 1008) := by
  unfold escLetterKey KEY_UP KEY_DOWN KEY_RIGHT KEY_LEFT KEY_HOME KEY_END
  split_ifs <;> omega

/-- Helper: every outcome of the `ESC O` switch is a named key code or
the bare escape value. -/
theorem escOKey_cases (u : Nat) :
    escOKey u = 27 ∨ (1000 ≤ escOKey u ∧ escOKey u ≤ 1008) := by
  unfold escOKey KEY_HOME KEY_END
  split_ifs <;> omega

/-- Claim C4: whenever the byte source yields the escape byte 0x1B, the
decoder returns a key event (it neither blocks forever, nor crashes,
nor reports an error), and that event is either a named navigation key
or the bare Escape value; for every byte sequence after the escape that
is outside the recognized set the result is exactly the Escape value,
and likewise with no byte following the escape within the timeout. -/
theorem readKey_escape_total (rest : List Nat) :
    (∃ k left, readKey (27 :: rest) = some (k, left)
      ∧ (k = 27 ∨ (1000 ≤ k ∧ k ≤ 1008)))
    ∧ (recognizedEsc rest = false →
        ∃ left, readKey (27 :: rest) = some (27, left))
    ∧ readKey [27] = some (27, []) := by
  refine ⟨?_, readKey_unrecognized rest, rfl⟩
  match rest with
  | [] => exact ⟨27, [], rfl, Or.inl rfl⟩
  | [s0] => exact ⟨27, [], rfl, Or.inl rfl⟩
  | s0 :: s1 :: r2 =>
    by_cases h0 : s0 = 91
    · subst h0
      by_cases hd : (48 ≤ s1 && s1 ≤ 57) = true
      · match r2 with
        | [] => exact ⟨27, [], by simp [readKey, hd], Or.inl rfl⟩
        | s2 :: r3 =>
          by_cases h126 : s2 = 126
          · subst h126
            exact ⟨escDigitKey s1, r3, by simp [readKey, hd],
              escDigitKey_cases s1⟩
          · exact ⟨27, r3, by simp [readKey, hd, h126], Or.inl rfl⟩
      · exact ⟨escLetterKey s1, r2, by simp [readKey, hd],
          escLetterKey_cases s1⟩
    · by_cases h79 : s0 = 79
      · subst h79
        exact ⟨escOKey s1, r2, by simp [readKey], escOKey_cases s1⟩
      · exact ⟨27, r2, by simp [readKey, h0, h79], Or.inl rfl⟩

/-- Witness for C4: the unrecognized sequence ESC [ Z decodes to bare
Escape. -/
theorem readKey_escape_total_witness :
    ∃ left, readKey [27, 91, 90] = some (27, left) :=
  (readKey_escape_total [91, 90]).2.1 (by decide)

/-- Claim C8: for every screen extent the welcome-banner content
appended for row 0 (padding plus banner text) occupies at most cols
bytes; when the banner text alone is at least cols bytes the appended
content is the banner clipped to exactly cols bytes; and with cols = 80
and any banner longer than 80 bytes the appended banner content is
exactly 80 bytes. -/
theorem drawWelcome_clipping (cols : Nat) (banner : List Nat) :
    (drawWelcome welcomeBanner cols).length ≤ cols
    ∧ (cols ≤ welcomeBanner.length →
        drawWelcome welcomeBanner cols = welcomeBanner.take cols)
    ∧ (80 < banner.length → (drawWelcome banner 80).length = 80) := by
  have hwb : welcomeBanner.length = 28 := by decide
  have ht79 : welcomeBanner.take 79 = welcomeBanner :=
    List.take_of_length_le (by omega)
  refine ⟨?_, ?_, ?_⟩
  · have hw : welcomelenOf welcomeBanner cols = min 28 cols := by
      unfold welcomelenOf
      rw [hwb]
      split_ifs <;> omega
    unfold drawWelcome paddingOf
    rw [hw, ht79]
    split_ifs <;>
      simp only [List.length_append, List.length_cons, List.length_nil,
        List.length_replicate, List.length_take, hwb] <;>
      omega
  · intro hc
    rw [hwb] at hc
    have hw : welcomelenOf welcomeBanner cols = cols := by
      unfold welcomelenOf
      rw [hwb]
      split_ifs <;> omega
    have hp : paddingOf welcomeBanner cols = 0 := by
      unfold paddingOf
      rw [hw]
      omega
    unfold drawWelcome
    rw [hw, hp, ht79]
    simp only [Nat.lt_irrefl, if_neg, List.nil_append, gt_iff_lt,
      Bool.false_eq_true, not_false_eq_true]
    rw [List.take_append_of_le_length (by omega)]
  · intro hb
    have hw : welcomelenOf banner 80 = 80 := by
      unfold welcomelenOf
      split_ifs <;> omega
    have hp : paddingOf banner 80 = 0 := by
      unfold paddingOf
      rw [hw]
    unfold drawWelcome
    rw [hw, hp]
    simp only [Nat.lt_irrefl, if_neg, List.nil_append, gt_iff_lt,
      Bool.false_eq_true, not_false_eq_true,
      List.length_take, List.length_append, List.length_cons, List.length_nil]
    omega

/-- Witness for C8 at cols = 10 with the real banner, and at cols = 80
with an 81-byte banner. -/
theorem drawWelcome_clipping_witness :
    drawWelcome welcomeBanner 10 = welcomeBanner.take 10
    ∧ (drawWelcome (List.replicate 81 65) 80).length = 80 :=
  ⟨(drawWelcome_clipping 10 (List.replicate 81 65)).2.1 (by decide),
   (drawWelcome_clipping 10 (List.replicate 81 65)).2.2 (by decide)⟩

/-- Helper: the segments of one screen row move the vertical cursor
model down one row exactly when the row is followed by the `"\r\n"`
(every row but the last), and never contain the `ESC[7m` stop. -/
theorem statusRow_rowSegs (rows cols y r : Nat) (rest : List Seg) :
    statusRow r (rowSegs rows cols y ++ rest)
      = statusRow (if y < rows - 1 then r + 1 else r) rest := by
  unfold rowSegs
  split_ifs with h <;> simp [statusRow, vStep]

/-- Helper: processing the rows drawn for the indices in `l` (all of
them strictly before the last row) advances the vertical cursor model
by one row per index. -/
theorem statusRow_rowBlock (rows cols : Nat) (l : List Nat) (r : Nat)
    (rest : List Seg) (hl : ∀ y ∈ l, y < rows - 1) :
    statusRow r (l.flatMap (rowSegs rows cols) ++ rest)
      = statusRow (r + l.length) rest := by
  induction l generalizing r with
  | nil => simp
  | cons y ys ih =>
    simp only [List.flatMap_cons, List.append_assoc]
    rw [statusRow_rowSegs, if_pos (hl y (by simp)),
      ih (r + 1) (fun z hz => hl z (by simp [hz]))]
    simp only [List.length_cons]
    congr 1
    omega

/-- Counterexample to claim C3: at extent 24×80 with the cursor at
(0,0), the reverse-video status string is written on terminal row 23,
not on the terminal's last line (row 24): the content rows end on the
last line with no trailing newline, and `ESC[1A` then moves up one
row. -/
theorem refreshScreen_status_not_last_line :
    statusRow 1 (frameSegs 24 80 0 0) = 23 ∧ (23 : Nat) ≠ 24 := by
  constructor
  · decide
  · decide

/-- Claim C3 (amended): for every editor state the frame produced by
`refreshScreen` contains, after the content rows, ESC[999C then ESC[1A
followed by the reverse-video status block (ESC[7m, the status text
with 1-indexed cursor coordinates and the extent, ESC[m); because the
content rows end on the terminal's last line without a trailing
newline and ESC[1A then moves up one row, this placement puts the
status string on the terminal's second-to-last line (row rows-1) for
every extent with at least two rows. -/
theorem refreshScreen_status_block (rows cols cy cx : Nat) (h2 : 2 ≤ rows) :
    frameBytes rows cols cy cx
      = framePrefix rows cols ++ ascii "\x1b[999C" ++ ascii "\x1b[1A"
        ++ ascii "\x1b[7m" ++ statusSent cy cx rows cols ++ ascii "\x1b[m"
        ++ frameSuffix cy cx
    ∧ statusRow 1 (frameSegs rows cols cy cx) = rows - 1 := by
  constructor
  · simp [frameBytes, frameSegs, framePrefix, frameSuffix, Seg.bytes,
      List.flatMap_append, List.append_assoc]
  · obtain ⟨k, rfl⟩ : ∃ k, rows = k + 2 := ⟨rows - 2, by omega⟩
    unfold frameSegs
    have hr : List.range (k + 2) = List.range (k + 1) ++ [k + 1] :=
      List.range_succ (k + 1)
    rw [hr]
    simp only [List.flatMap_append, List.flatMap_cons, List.flatMap_nil,
      List.append_nil, List.cons_append, List.nil_append, List.append_assoc]
    simp only [statusRow, vStep, reduceCtorEq, if_false]
    rw [statusRow_rowBlock (k + 2) cols (List.range (k + 1)) 1 _
      (fun y hy => by simpa using List.mem_range.mp hy)]
    rw [statusRow_rowSegs]
    simp [statusRow, vStep]

/-- Witness for the amended C3 at extent 24×80, cursor (0,0). -/
theorem refreshScreen_status_block_witness :
    frameBytes 24 80 0 0
      = framePrefix 24 80 ++ ascii "\x1b[999C" ++ ascii "\x1b[1A"
        ++ ascii "\x1b[7m" ++ statusSent 0 0 24 80 ++ ascii "\x1b[m"
        ++ frameSuffix 0 0
    ∧ statusRow 1 (frameSegs 24 80 0 0) = 24 - 1 :=
  refreshScreen_status_block 24 80 0 0 (by decide)

/-- Helper: the response-read loop consumes exactly the bytes before
the first `'R'` when they fit the 31-byte buffer. -/
theorem readResp_stops (l tail : List Nat) (n : Nat)
    (hl : ∀ b ∈ l, b ≠ 82) (hn : l.length ≤ n) :
    readResp n (l ++ 82 :: tail) = l := by
  induction l generalizing n with
  | nil =>
    cases n with
    | zero => rfl
    | succ m => simp [readResp]
  | cons b bs ih =>
    cases n with
    | zero => simp at hn
    | succ m =>
      have hb : b ≠ 82 := hl b (by simp)
      simp only [List.cons_append, readResp, hb, if_false, ite_false,
        if_neg, not_false_eq_true]
      rw [List.append_eq, ih m (fun z hz => hl z (by simp [hz]))
        (by simp at hn; omega)]

/-- Helper: scanning a digit run followed by a non-digit (or nothing)
accumulates exactly the decimal value of the run. -/
theorem digitsGo_spec (acc : Nat) (ds rest : List Nat)
    (hds : ∀ b ∈ ds, isDigitB b = true)
    (hrest : rest = [] ∨ ∃ c cs, rest = c :: cs ∧ isDigitB c = false) :
    digitsGo acc (ds ++ rest)
      = (ds.foldl (fun a b => a * 10 + (b - 48)) acc, rest) := by
  induction ds generalizing acc with
  | nil =>
    rcases hrest with rfl | ⟨c, cs, rfl, hc⟩
    · rfl
    · simp [digitsGo, hc]
  | cons d ds' ih =>
    have hd : isDigitB d = true := hds d (by simp)
    simp only [List.cons_append, digitsGo, hd, if_true, List.foldl_cons]
    exact ih _ (fun b hb => hds b (by simp [hb]))

/-- Helper: a `%d` conversion on a nonempty digit run followed by a
non-digit (or nothing) succeeds with the run's decimal value. -/
theorem parseIntScan_digits (ds rest : List Nat) (hne : ds ≠ [])
    (hds : ∀ b ∈ ds, isDigitB b = true)
    (hrest : rest = [] ∨ ∃ c cs, rest = c :: cs ∧ isDigitB c = false) :
    parseIntScan (ds ++ rest) = some (decVal ds, rest) := by
  cases ds with
  | nil => exact absurd rfl hne
  | cons d ds' =>
    have hd : isDigitB d = true := hds d (by simp)
    have hd' : 48 ≤ d ∧ d ≤ 57 := by
      simpa [isDigitB] using hd
    have hsp : isSpaceB d = false := by
      simp only [isSpaceB]
      simp only [Bool.or_eq_false_iff, Bool.and_eq_false_iff]
      constructor
      · simp; omega
      · right; simp; omega
    unfold parseIntScan
    rw [List.cons_append, List.dropWhile_cons, hsp]
    simp only [Bool.false_eq_true, if_false, ite_false]
    rw [if_neg (by omega), if_neg (by omega), if_pos hd]
    rw [show d :: (ds' ++ rest) = (d :: ds') ++ rest from rfl,
      digitsGo_spec 0 (d :: ds') rest hds hrest]
    rfl

/-- Helper: `sscanf("%d;%d")` on a digit run, a semicolon and a second
digit run parses the two decimal values. -/
theorem sscanfDD_digits (ds1 ds2 : List Nat) (h1 : ds1 ≠ []) (h2 : ds2 ≠ [])
    (hd1 : ∀ b ∈ ds1, isDigitB b = true) (hd2 : ∀ b ∈ ds2, isDigitB b = true) :
    sscanfDD (ds1 ++ 59 :: ds2) = some (decVal ds1, decVal ds2) := by
  have hp2 : parseIntScan ds2 = some (decVal ds2, []) := by
    have := parseIntScan_digits ds2 [] h2 hd2 (Or.inl rfl)
    rwa [List.append_nil] at this
  unfold sscanfDD
  rw [parseIntScan_digits ds1 (59 :: ds2) h1 hd1
    (Or.inr ⟨59, ds2, rfl, by decide⟩)]
  simp [hp2]

/-- Counterexample to claim C5: the response bytes ESC [ 1 ; 2 X (no
`R` terminator — the read loop ends on the short read) deviate from
the pattern ESC [ rows ; cols R, yet `getCursorPosition` returns
success with rows 1 and cols 2 instead of an error: `sscanf` ignores
what follows the two parsed integers. -/
theorem getCursorPosition_accepts_deviant :
    getCursorPosition [27, 91, 49, 59, 50, 88] = some (1, 2)
    ∧ specPattern [27, 91, 49, 59, 50, 88] = false := by
  constructor
  · decide
  · decide

/-- Claim C5 (amended): `getCursorPosition` returns success with the
parsed rows and cols for every response matching the pattern
ESC [ rows ; cols R whose prefix before the terminator fits the
31-byte buffer; responses deviating from the pattern are not always
rejected — it suffices that the bytes read begin with ESC [ and that
the remainder parses under `sscanf("%d;%d")`, so e.g. a missing `R`
terminator or trailing junk can still yield success. -/
theorem getCursorPosition_pattern_sound (ds1 ds2 tail : List Nat)
    (h1 : ds1 ≠ []) (h2 : ds2 ≠ [])
    (hd1 : ∀ b ∈ ds1, isDigitB b = true)
    (hd2 : ∀ b ∈ ds2, isDigitB b = true)
    (hlen : ds1.length + ds2.length ≤ 28) :
    getCursorPosition ((27 :: 91 :: (ds1 ++ 59 :: ds2)) ++ 82 :: tail)
      = some (decVal ds1, decVal ds2) := by
  have hne : ∀ b ∈ 27 :: 91 :: (ds1 ++ 59 :: ds2), b ≠ 82 := by
    intro b hb
    simp only [List.mem_cons, List.mem_append] at hb
    rcases hb with rfl | rfl | hb | rfl | hb
    · omega
    · omega
    · have := hd1 b hb
      simp [isDigitB] at this
      omega
    · omega
    · have := hd2 b hb
      simp [isDigitB] at this
      omega
  have hlen' : (27 :: 91 :: (ds1 ++ 59 :: ds2)).length ≤ 31 := by
    simp
    omega
  unfold getCursorPosition
  rw [readResp_stops _ tail 31 hne hlen']
  simp only [List.cons_append, List.getD_cons_zero, List.getD_cons_succ,
    ne_eq, not_true_eq_false, if_false, ite_false, if_neg, not_false_eq_true,
    List.drop_succ_cons, List.drop_zero]
  exact sscanfDD_digits ds1 ds2 h1 h2 hd1 hd2

/-- Witness for the amended C5 on the response ESC [ 1 ; 2 R. -/
theorem getCursorPosition_pattern_sound_witness :
    getCursorPosition ((27 :: 91 :: ([49] ++ 59 :: [50])) ++ 82 :: [])
      = some (decVal [49], decVal [50]) :=
  getCursorPosition_pattern_sound [49] [50] [] (by decide) (by decide)
    (by decide) (by decide) (by decide)
